import Mathlib

/-!
# gdocs-merge-example: a verification development of `quickstart.go`

The program is a linear script: read a credentials file, obtain (or load a
cached) OAuth token, copy a Drive document and send one batch of edits to the
copy.  Every function of `quickstart.go` is embedded below as a function from
a `World` (file system, console, trace of effects) to an `Outcome`.

Code that lives outside the repository (the Go standard library, the oauth2
package, the generated Drive and Docs clients, the remote services) is not
translated: what the source calls in them is either a small documented rule
written out here (`os.Open`, `os.OpenFile`, `fmt.Scan`, the range check of
`time.Time.MarshalJSON`, `io.EOF` on an empty stream) or a field of `Env`,
over which every theorem quantifies.
-/

namespace Quickstart

/-! ## Data model: the request types of `google.golang.org/api/docs/v1` used by the source -/

/-- Go `docs.Location`; the source sets `Index` only. -/
structure Location where
  Index : Int
  SegmentId : String := ""
deriving DecidableEq, Repr

/-- Go `docs.InsertTextRequest`. -/
structure InsertTextRequest where
  Location : Option Location := none
  Text : String := ""
deriving DecidableEq, Repr

/-- Go `docs.TableCellLocation`. -/
structure TableCellLocation where
  ColumnIndex : Int := 0
  RowIndex : Int := 0
  TableStartLocation : Option Location := none
deriving DecidableEq, Repr

/-- Go `docs.InsertTableRowRequest`. -/
structure InsertTableRowRequest where
  InsertBelow : Bool := false
  TableCellLocation : Option TableCellLocation := none
deriving DecidableEq, Repr

/-- Go `docs.SubstringMatchCriteria`. -/
structure SubstringMatchCriteria where
  MatchCase : Bool := false
  Text : String := ""
deriving DecidableEq, Repr

/-- Go `docs.ReplaceAllTextRequest`. -/
structure ReplaceAllTextRequest where
  ContainsText : Option SubstringMatchCriteria := none
  ReplaceText : String := ""
deriving DecidableEq, Repr

/-- Go `docs.Request`: a union written as a struct of pointers.  Only the three
members that `updateRequests` ever assigns are kept; the members the source
never mentions stay at their Go zero value (nil) in every request it builds. -/
structure Request where
  InsertTableRow : Option InsertTableRowRequest := none
  InsertText : Option InsertTextRequest := none
  ReplaceAllText : Option ReplaceAllTextRequest := none
deriving DecidableEq, Repr

/-- Source constant `insertIndex`. -/
def insertIndex : Int := 178

/-- Source constant `tableIndex`. -/
def tableIndex : Int := 82

/-- Source function `updateRequests` (lines 206-235): no parameter, no effect,
a literal slice of four requests. -/
def updateRequests : List Request :=
  [ { InsertText := some
        { Location := some { Index := insertIndex }
          Text := "\nHello." } },
    { InsertTableRow := some
        { InsertBelow := true
          TableCellLocation := some
            { ColumnIndex := 0, RowIndex := 0
              TableStartLocation := some { Index := tableIndex } } } },
    { ReplaceAllText := some
        { ContainsText := some { Text := "{{insert2}}" }
          ReplaceText := "lazy dog" } },
    { ReplaceAllText := some
        { ContainsText := some { Text := "{{insert1}}" }
          ReplaceText := "The Quick Brown fox." } } ]

/-- Number of union members that are set in a request. -/
def Request.variantsSet (r : Request) : Nat :=
  (if r.InsertTableRow.isSome then 1 else 0)
    + (if r.InsertText.isSome then 1 else 0)
    + (if r.ReplaceAllText.isSome then 1 else 0)

/-- The fixed document offset a request targets, when it targets one:
`InsertText.Location.Index` or
`InsertTableRow.TableCellLocation.TableStartLocation.Index`. -/
def Request.targetOffset (r : Request) : Option Int :=
  match r.InsertText with
  | some it => it.Location.map (fun l => l.Index)
  | none =>
    match r.InsertTableRow with
    | some tr =>
      match tr.TableCellLocation with
      | some c => c.TableStartLocation.map (fun l => l.Index)
      | none => none
    | none => none

/-! ## Data model: tokens, clients, documents, responses -/

/-- Go `time.Time`, as the civil date and time it shows in its own location.
Only `year` is inspected by the model (the range check of `MarshalJSON`). -/
structure Time where
  year : Int := 1
  month : Nat := 1
  day : Nat := 1
  hour : Nat := 0
  minute : Nat := 0
  second : Nat := 0
  nanosecond : Nat := 0
  offset : Int := 0
deriving DecidableEq, Repr

/-- Go `oauth2.Token` (exported fields). -/
structure Token where
  AccessToken : String := ""
  TokenType : String := ""
  RefreshToken : String := ""
  Expiry : Time := {}
deriving DecidableEq, Repr

/-- Go `oauth2.Config`. -/
structure Config where
  ClientID : String := ""
  ClientSecret : String := ""
  AuthURL : String := ""
  TokenURL : String := ""
  RedirectURL : String := ""
  Scopes : List String := []
deriving DecidableEq, Repr

/-- The `*http.Client` returned by `config.Client(ctx, tok)`: it is determined
by the configuration and the token pointer it was built from. -/
structure Client where
  config : Config
  token : Option Token
deriving DecidableEq, Repr

/-- Go `drive.Service`. -/
structure DriveService where
  client : Client
deriving DecidableEq, Repr

/-- Go `docs.Service`. -/
structure DocsService where
  client : Client
deriving DecidableEq, Repr

/-- Go `drive.File`; the source reads `Id` and sets `Name`. -/
structure DriveFile where
  Id : String := ""
  Name : String := ""
deriving DecidableEq, Repr

/-- Go `docs.TextRun`. -/
structure TextRun where
  Content : String := ""
deriving DecidableEq, Repr

/-- Go `docs.ParagraphElement`: `TextRun` is a pointer, nil for elements that
are not text runs (page breaks, inline objects, footnote references, ...). -/
structure ParagraphElement where
  StartIndex : Int := 0
  EndIndex : Int := 0
  TextRun : Option TextRun := none
deriving DecidableEq, Repr

/-- Go `docs.Paragraph`. -/
structure Paragraph where
  Elements : List ParagraphElement := []
deriving DecidableEq, Repr

/-- Go `docs.Table`; the source only tests the pointer for nil. -/
structure Table where
  Rows : Int := 0
  Columns : Int := 0
deriving DecidableEq, Repr

/-- Go `docs.StructuralElement`. -/
structure StructuralElement where
  StartIndex : Int := 0
  EndIndex : Int := 0
  Paragraph : Option Paragraph := none
  Table : Option Table := none
deriving DecidableEq, Repr

/-- Go `docs.Body`. -/
structure Body where
  Content : List StructuralElement := []
deriving DecidableEq, Repr

/-- Go `docs.Document`; `Body` is a pointer. -/
structure Document where
  DocumentId : String := ""
  Title : String := ""
  Body : Option Body := none
deriving DecidableEq, Repr

/-- Go `docs.ReplaceAllTextResponse`. -/
structure ReplaceAllTextResponse where
  OccurrencesChanged : Int := 0
deriving DecidableEq, Repr

/-- Go `docs.Response`, one reply of a batch update. -/
structure Response where
  ReplaceAllText : Option ReplaceAllTextResponse := none
deriving DecidableEq, Repr

/-- Go `docs.BatchUpdateDocumentResponse`. -/
structure BatchUpdateDocumentResponse where
  DocumentId : String := ""
  Replies : List Response := []
deriving DecidableEq, Repr

/-! ## The world the program runs in -/

/-- A regular file: its bytes and its permission bits. -/
structure File where
  data : String
  perm : Nat
deriving DecidableEq, Repr

/-- Every effect the program can have on the outside, in the order it happens. -/
inductive Event where
  | stdout (s : String)
  | stderr (s : String)
  | scan
  | openRead (path : String)
  | openWrite (path : String)
  | write (path : String) (data : String)
  | exchange (code : String)
  | filesCopy (srcID : String) (name : String)
  | documentsGet (docID : String)
  | batchUpdate (docID : String) (reqs : List Request)
deriving DecidableEq, Repr

/-- Mutable state of a run.  `fs` maps paths to regular files; `umask` is the
process file-mode creation mask; `noCreate` lists the paths at which the
directory refuses the creation of a file; `stdin` is the sequence of
space-separated words still to be read from the console; `trace` records the
effects so far. -/
structure World where
  fs : List (String × File) := []
  umask : Nat := 0
  noCreate : List String := []
  stdin : List String := []
  trace : List Event := []
deriving DecidableEq, Repr

/-- Behaviour of the code outside the repository, fixed for a run.  Each field
stands for one library or service call made by the source and returns what
that call returns. -/
structure Env where
  /-- JSON text `encoding/json` produces for a token all of whose fields marshal. -/
  tokenJSON : Token → String
  /-- `json.Decoder.Decode` into a zero `oauth2.Token` on a stream that holds at
  least one non-blank byte: the token as left by the call, and the error. -/
  unmarshalToken : String → Token × Option String
  /-- `google.ConfigFromJSON(b, scope)`. -/
  configFromJSON : String → String → Except String Config
  /-- `config.AuthCodeURL("state-token", oauth2.AccessTypeOffline)`. -/
  authCodeURL : Config → String
  /-- `config.Exchange(oauth2.NoContext, authCode)`. -/
  exchangeCode : Config → String → Except String Token
  /-- `drive.New(client)`. -/
  driveNew : Client → Except String DriveService
  /-- `docs.New(client)`. -/
  docsNew : Client → Except String DocsService
  /-- `ds.Files.Copy(srcID, &drive.File{Name: tgtName}).Do()`. -/
  filesCopy : DriveService → String → String → Except String DriveFile
  /-- `srv.Documents.Get(docID).Do()`. -/
  documentsGet : DocsService → String → Except String Document
  /-- `srv.Documents.BatchUpdate(docID, &breq).Do()`. -/
  documentsBatchUpdate : DocsService → String → List Request →
    Except String BatchUpdateDocumentResponse
  /-- `se.MarshalJSON()` on a structural element. -/
  marshalElement : StructuralElement → Except String String
  /-- `res.MarshalJSON()` on a batch-update response. -/
  marshalResponse : BatchUpdateDocumentResponse → Except String String

/-- How a call ends: it returns, or `log.Fatalf` ends the process, or a nil
pointer is dereferenced (run-time panic). -/
inductive Outcome (α : Type) where
  | ret (a : α) (w : World)
  | fatal (w : World)
  | nilDeref (w : World)
deriving DecidableEq, Repr

/-- The world in which a call ended. -/
def Outcome.world {α : Type} : Outcome α → World
  | .ret _ w => w
  | .fatal w => w
  | .nilDeref w => w

/-- The value a call returned, if it returned. -/
def Outcome.value {α : Type} : Outcome α → Option α
  | .ret a _ => some a
  | .fatal _ => none
  | .nilDeref _ => none

/-- True when the call returned to its caller. -/
def Outcome.returned {α : Type} : Outcome α → Bool
  | .ret _ _ => true
  | .fatal _ => false
  | .nilDeref _ => false

/-- True when the call ended the process through `log.Fatalf`. -/
def Outcome.isFatal {α : Type} : Outcome α → Bool
  | .ret _ _ => false
  | .fatal _ => true
  | .nilDeref _ => false

/-- True when the call ended in a nil-pointer panic. -/
def Outcome.panicked {α : Type} : Outcome α → Bool
  | .ret _ _ => false
  | .fatal _ => false
  | .nilDeref _ => true

/-- A Go function with effects: from the world before to the outcome. -/
def Prog (α : Type) : Type := World → Outcome α

/-- Sequencing: the second statement runs only if the first returned. -/
def Prog.bind {α β : Type} (p : Prog α) (f : α → Prog β) : Prog β := fun w =>
  match p w with
  | .ret a w1 => f a w1
  | .fatal w1 => .fatal w1
  | .nilDeref w1 => .nilDeref w1

/-- A statement without effect. -/
def Prog.pure {α : Type} (a : α) : Prog α := fun w => .ret a w

instance : Monad Prog where
  pure := Prog.pure
  bind := Prog.bind

/-- Append one effect to the trace. -/
def emit (e : Event) (w : World) : World := { w with trace := w.trace ++ [e] }

/-- Writing a string to standard output (`fmt.Printf`, `fmt.Println`). -/
def printf (s : String) : Prog Unit := fun w => .ret () (emit (.stdout s) w)

/-- Go `log.Fatalf`: log the message, then `os.Exit(1)`; deferred calls do not run. -/
def fatalf {α : Type} (msg : String) : Prog α := fun w => .fatal (emit (.stderr msg) w)

/-- A nil pointer dereference. -/
def nilPanic {α : Type} : Prog α := fun w => .nilDeref w

/-! ## Library calls written out: files, console, JSON streams -/

/-- Owner-read permission bit is set. -/
def File.readable (f : File) : Bool := f.perm &&& 0o400 != 0

/-- Owner-write permission bit is set. -/
def File.writable (f : File) : Bool := f.perm &&& 0o200 != 0

/-- The file stored at `path`, if any. -/
def fsGet (fs : List (String × File)) (path : String) : Option File :=
  fs.lookup path

/-- Store `f` at `path`, replacing what was there. -/
def fsPut (fs : List (String × File)) (path : String) (f : File) : List (String × File) :=
  (path, f) :: fs.filter (fun e => e.1 != path)

/-- Mode of a newly created file: the requested bits minus those of the umask. -/
def applyUmask (perm umask : Nat) : Nat := perm ^^^ (perm &&& umask)

/-- Go `os.Open(path)` followed by reading the handle to its end.  The process
runs as the unprivileged owner of its files: a missing file or a file without
the owner-read bit is an error.  The program never writes between opening a
file for reading and reading it, so the bytes are those present at the open. -/
def osOpen (path : String) : Prog (Except String String) := fun w =>
  let w1 := emit (.openRead path) w
  match fsGet w.fs path with
  | none => .ret (.error ("open " ++ path ++ ": no such file or directory")) w1
  | some f =>
    if f.readable then .ret (.ok f.data) w1
    else .ret (.error ("open " ++ path ++ ": permission denied")) w1

/-- Go `os.OpenFile(path, os.O_RDWR|os.O_CREATE|os.O_TRUNC, perm)`.  An existing
file must be readable and writable by its owner; it is truncated and keeps its
permission bits.  A missing file is created empty with mode `perm` minus the
umask, unless its directory refuses the creation. -/
def osOpenFileTrunc (path : String) (perm : Nat) : Prog (Except String Unit) := fun w =>
  let w1 := emit (.openWrite path) w
  match fsGet w.fs path with
  | some f =>
    if f.readable && f.writable then
      .ret (.ok ()) { w1 with fs := fsPut w.fs path { f with data := "" } }
    else .ret (.error ("open " ++ path ++ ": permission denied")) w1
  | none =>
    if path ∈ w.noCreate then
      .ret (.error ("open " ++ path ++ ": permission denied")) w1
    else
      .ret (.ok ()) { w1 with fs := fsPut w.fs path { data := "", perm := applyUmask perm w.umask } }

/-- Writing through the handle returned by `osOpenFileTrunc`: the bytes are
appended at the handle's offset, which is the end of the file. -/
def fileWrite (path : String) (data : String) : Prog (Option String) := fun w =>
  match fsGet w.fs path with
  | none => .ret (some ("write " ++ path ++ ": file already closed")) w
  | some f =>
    .ret none (emit (.write path data) { w with fs := fsPut w.fs path { f with data := f.data ++ data } })

/-- Go `ioutil.ReadFile(path)`. -/
def ioutilReadFile (path : String) : Prog (Except String String) := osOpen path

/-- Go `fmt.Scan(&s)` for one string operand: the next space-separated word of
standard input, or an error when the input is exhausted. -/
def fmtScan : Prog (Except String String) := fun w =>
  let w1 := emit .scan w
  match w.stdin with
  | [] => .ret (.error "EOF") w1
  | code :: rest => .ret (.ok code) { w1 with stdin := rest }

/-- Go `json.Marshal` of an `oauth2.Token`.  `time.Time.MarshalJSON` rejects a
year outside of `[0,9999]`; every other field of a token always marshals. -/
def jsonMarshalToken (env : Env) (tok : Token) : Except String String :=
  if tok.Expiry.year < 0 ∨ tok.Expiry.year ≥ 10000 then
    .error "json: error calling MarshalJSON for type time.Time: Time.MarshalJSON: year outside of range [0,9999]"
  else .ok (env.tokenJSON tok)

/-- Go `json.NewEncoder(f).Encode(token)`: marshal first, and only when that
succeeded write the text and a newline to the file.  Returns the error. -/
def jsonEncodeToFile (env : Env) (path : String) (tok : Token) : Prog (Option String) :=
  match jsonMarshalToken env tok with
  | .error e => Prog.pure (some e)
  | .ok text => fileWrite path (text ++ "\n")

/-- JSON white space. -/
def isJSONSpace (c : Char) : Bool := c == ' ' || c == '\t' || c == '\r' || c == '\n'

/-- Go `json.NewDecoder(f).Decode(tok)` on a zero token: a stream with no value
in it is `io.EOF` and leaves the token untouched. -/
def jsonDecodeToken (env : Env) (data : String) : Token × Option String :=
  if data.data.all isJSONSpace then ({}, some "EOF") else env.unmarshalToken data

/-! ## The functions of `quickstart.go` -/

/-- Source function `tokenFromFile` (lines 47-57).  The deferred `f.Close()`
has no effect the program observes. -/
def tokenFromFile (env : Env) (file : String) : Prog (Option Token × Option String) := do
  let r ← osOpen file
  match r with
  | .error err => pure (none, some err)
  | .ok data =>
    let (tok, err) := jsonDecodeToken env data
    pure (some tok, err)

/-- Source function `saveToken` (lines 59-68).  The value returned by `Encode`
is dropped, as in the source. -/
def saveToken (env : Env) (path : String) (token : Token) : Prog Unit := do
  printf ("Saving credential file to: " ++ path ++ "\n")
  let r ← osOpenFileTrunc path 0o600
  match r with
  | .error err => fatalf ("Unable to cache OAuth token: " ++ err)
  | .ok () =>
    let _ ← jsonEncodeToFile env path token
    pure ()

/-- Text printed by `getTokenFromWeb` before it reads the console. -/
def authPrompt (authURL : String) : String :=
  "Go to the following link in your browser then type the authorization code: \n"
    ++ authURL ++ "\n"

/-- The token-exchange request. -/
def configExchange (env : Env) (config : Config) (authCode : String) :
    Prog (Except String Token) := fun w =>
  .ret (env.exchangeCode config authCode) (emit (.exchange authCode) w)

/-- Source function `getTokenFromWeb` (lines 29-45). -/
def getTokenFromWeb (env : Env) (config : Config) : Prog Token := do
  let authURL := env.authCodeURL config
  printf (authPrompt authURL)
  let r ← fmtScan
  match r with
  | .error err => fatalf ("Unable to read authorization code: " ++ err)
  | .ok authCode =>
    let r ← configExchange env config authCode
    match r with
    | .error err => fatalf ("Unable to retrieve token from web: " ++ err)
    | .ok tok => pure tok

/-- Source function `getClient` (lines 18-27). -/
def getClient (env : Env) (config : Config) : Prog Client := do
  let tokFile := "token.json"
  let (tok, err) ← tokenFromFile env tokFile
  if err.isSome then
    let tok ← getTokenFromWeb env config
    saveToken env tokFile tok
    pure { config := config, token := some tok }
  else
    pure { config := config, token := tok }

/-- Source function `readCredentials` (lines 104-110): the path read is the
literal of line 105, not the parameter. -/
def readCredentials (_fn : String) : Prog String := do
  let r ← ioutilReadFile "credentials.json"
  match r with
  | .error err => fatalf ("Unable to read client secret file: " ++ err)
  | .ok b => pure b

/-- Go constant `drive.DriveScope`. -/
def driveScope : String := "https://www.googleapis.com/auth/drive"

/-- Source function `newGoogleDriveService` (lines 111-124). -/
def newGoogleDriveService (env : Env) (b : String) : Prog DriveService := do
  match env.configFromJSON b driveScope with
  | .error err => fatalf ("Unable to parse client secret file to config: " ++ err)
  | .ok config =>
    let client ← getClient env config
    match env.driveNew client with
    | .error err => fatalf ("Unable to retrieve Drive client: " ++ err)
    | .ok srv => pure srv

/-- Source function `newGoogleDocsService` (lines 126-143). -/
def newGoogleDocsService (env : Env) (b : String) : Prog DocsService := do
  match env.configFromJSON b driveScope with
  | .error err => fatalf ("Unable to parse client secret file to config: " ++ err)
  | .ok config =>
    let client ← getClient env config
    match env.docsNew client with
    | .error err => fatalf ("Unable to retrieve Docs client: " ++ err)
    | .ok srv => pure srv

/-- The Drive copy request. -/
def filesCopyDo (env : Env) (ds : DriveService) (srcID tgtName : String) :
    Prog (Except String DriveFile) := fun w =>
  .ret (env.filesCopy ds srcID tgtName) (emit (.filesCopy srcID tgtName) w)

/-- Source function `copyGoogleDriveFile` (lines 96-102). -/
def copyGoogleDriveFile (env : Env) (ds : DriveService) (srcID tgtName : String) :
    Prog DriveFile := do
  let r ← filesCopyDo env ds srcID tgtName
  match r with
  | .error err => fatalf ("could not copy file: " ++ err)
  | .ok f => pure f

/-- The Docs get-document request. -/
def documentsGetDo (env : Env) (srv : DocsService) (docID : String) :
    Prog (Except String Document) := fun w =>
  .ret (env.documentsGet srv docID) (emit (.documentsGet docID) w)

/-- Source function `getDoc` (lines 157-163). -/
def getDoc (env : Env) (srv : DocsService) (docID : String) : Prog Document := do
  let r ← documentsGetDo env srv docID
  match r with
  | .error err => fatalf ("Unable to retrieve data from document: " ++ err)
  | .ok doc => pure doc

/-- Source function `getBodyContentJSON` (lines 165-171). -/
def getBodyContentJSON (env : Env) (se : StructuralElement) : Prog String :=
  match env.marshalElement se with
  | .error err => fatalf ("getBodyContentJSON: " ++ err)
  | .ok b => pure b

/-- Source function `showTables` (lines 173-179). -/
def showTables (se : StructuralElement) (i : Nat) (_b : String) : Prog Unit :=
  match se.Table with
  | none => pure ()
  | some _ => do
    printf ("Table start index: " ++ toString se.StartIndex ++ "\n")
    printf ("Element: " ++ toString i ++ "\n\n-------\n")

/-- The loop of `showParagraphs` (lines 185-187): `e.TextRun.Content`
dereferences the `TextRun` pointer of every element. -/
def showElements : List ParagraphElement → Prog Unit
  | [] => pure ()
  | e :: rest =>
    match e.TextRun with
    | none => nilPanic
    | some tr => do
      printf (tr.Content ++ "\n")
      showElements rest

/-- Source function `showParagraphs` (lines 181-189). -/
def showParagraphs (se : StructuralElement) (i : Nat) (b : String) : Prog Unit :=
  match se.Paragraph with
  | none => pure ()
  | some p => do
    showElements p.Elements
    printf ("Element: " ++ toString i ++ "\n\n" ++ b ++ "\n-------\n")

/-- The loop of `printDoc` (lines 149-154), `i` being the index of the first
element of the list. -/
def printElements (env : Env) : Nat → List StructuralElement → Prog Unit
  | _, [] => pure ()
  | i, v :: rest => do
    let b ← getBodyContentJSON env v
    showTables v i b
    showParagraphs v i b
    printElements env (i + 1) rest

/-- Source function `printDoc` (lines 145-155); `doc.Body.Content` dereferences
the `Body` pointer. -/
def printDoc (env : Env) (srv : DocsService) (docID : String) : Prog Unit := do
  let doc ← getDoc env srv docID
  printf ("The title of the doc is: " ++ doc.Title ++ "\n")
  match doc.Body with
  | none => nilPanic
  | some body => printElements env 0 body.Content

/-- Source function `showUpdateResponses` (lines 237-243). -/
def showUpdateResponses (env : Env) (res : BatchUpdateDocumentResponse) : Prog Unit :=
  match env.marshalResponse res with
  | .error err => fatalf ("showUpdateResponses: " ++ err)
  | .ok b => printf (b ++ "\n")

/-- The Docs batch-update request. -/
def batchUpdateDo (env : Env) (srv : DocsService) (docID : String) (reqs : List Request) :
    Prog (Except String BatchUpdateDocumentResponse) := fun w =>
  .ret (env.documentsBatchUpdate srv docID reqs) (emit (.batchUpdate docID reqs) w)

/-- Source function `updateDoc` (lines 196-204). -/
def updateDoc (env : Env) (srv : DocsService) (docID : String) : Prog Unit := do
  let reqs := updateRequests
  let r ← batchUpdateDo env srv docID reqs
  match r with
  | .error err => fatalf ("Unabled to update data in document: " ++ err)
  | .ok bres => showUpdateResponses env bres

/-- Source constant `testDocID`. -/
def testDocID : String := "1F6ye209lFqkg5LHCepvK2vQMDnCuxW_PagasjwWuq5o"

/-- Source constant `outputFilename`. -/
def outputFilename : String := "merged-output-from-try-gdocs-api"

/-- Source function `main` (lines 83-94). -/
def main (env : Env) : Prog Unit := do
  let b ← readCredentials "credentials.json"
  let ds ← newGoogleDriveService env b
  let outFile ← copyGoogleDriveFile env ds testDocID outputFilename
  let docID := outFile.Id
  let srv ← newGoogleDocsService env b
  updateDoc env srv docID

/-! ## A concrete environment, used to exhibit runs -/

/-- A token as the identity provider issues them. -/
def sampleToken : Token :=
  { AccessToken := "ya29.a0Af", TokenType := "Bearer", RefreshToken := "1//0gRefresh"
    Expiry := { year := 2026, month := 11, day := 4, hour := 12 } }

/-- JSON text of `sampleToken`. -/
def sampleTokenJSON : String :=
  "\x7b\"access_token\":\"ya29.a0Af\",\"token_type\":\"Bearer\",\"refresh_token\":\"1//0gRefresh\",\"expiry\":\"2026-11-04T12:00:00Z\"\x7d"

/-- A client configuration. -/
def sampleConfig : Config :=
  { ClientID := "client-id", ClientSecret := "secret"
    AuthURL := "https://accounts.google.com/o/oauth2/auth"
    TokenURL := "https://oauth2.googleapis.com/token"
    RedirectURL := "urn:ietf:wg:oauth:2.0:oob", Scopes := [driveScope] }

/-- A response of the Docs service to the four requests. -/
def sampleResponse : BatchUpdateDocumentResponse :=
  { DocumentId := "COPY_1"
    Replies := [{}, {}, { ReplaceAllText := some { OccurrencesChanged := 1 } },
      { ReplaceAllText := some { OccurrencesChanged := 1 } }] }

/-- An environment with finitely many answers: the codec knows `sampleToken`,
the identity provider accepts the code `"4/code"`, the Drive service copies
`testDocID` to a document `"COPY_1"` and refuses every other source, the Docs
service accepts batches sent to `"COPY_1"`. -/
def sampleEnv : Env where
  tokenJSON := fun tok => if tok = sampleToken then sampleTokenJSON else "\x7b\x7d"
  unmarshalToken := fun s =>
    if s = sampleTokenJSON ++ "\n" then (sampleToken, none)
    else ({}, some "invalid character")
  configFromJSON := fun _ _ => .ok sampleConfig
  authCodeURL := fun c => c.AuthURL ++ "?state=state-token"
  exchangeCode := fun _ code =>
    if code = "4/code" then .ok sampleToken else .error "oauth2: cannot fetch token"
  driveNew := fun c => .ok { client := c }
  docsNew := fun c => .ok { client := c }
  filesCopy := fun _ src name =>
    if src = testDocID then .ok { Id := "COPY_1", Name := name }
    else .error "googleapi: Error 403: insufficient permissions"
  documentsGet := fun _ _ => .error "googleapi: Error 404"
  documentsBatchUpdate := fun _ docID _ =>
    if docID = "COPY_1" then .ok sampleResponse else .error "googleapi: Error 400"
  marshalElement := fun _ => .ok "\x7b\x7d"
  marshalResponse := fun _ => .ok "\x7b\"documentId\":\"COPY_1\"\x7d"

/-- A world in which `token.json` holds the JSON text of `sampleToken`. -/
def cachedWorld : World :=
  { fs := [("token.json", { data := sampleTokenJSON ++ "\n", perm := 0o600 })] }

/-- A token whose expiry lies in the year 10000. -/
def farToken : Token :=
  { AccessToken := "ya29.a0Af", TokenType := "Bearer", RefreshToken := "1//0gRefresh"
    Expiry := { year := 10000, month := 1, day := 1 } }

/-- A world in which `token.json` exists, readable by group and others, and
holds more bytes than any token encoding. -/
def sharedWorld : World :=
  { fs := [("token.json",
      { data := "0123456789012345678901234567890123456789012345678901234567890123456789012345678901234567890123456789012345678901234567890123456789012345678901234567890123456789"
        perm := 0o644 })] }

/-- A world with two credential files of different content. -/
def twoFilesWorld : World :=
  { fs := [("credentials.json", { data := "\x7b\"installed\":\"A\"\x7d", perm := 0o600 }),
           ("other.json", { data := "\x7b\"installed\":\"B\"\x7d", perm := 0o600 })] }

/-- Number of console reads attempted in a trace. -/
def scanCount (tr : List Event) : Nat := tr.count Event.scan

/-- Number of times the authorization prompt of `config` was printed in a trace. -/
def promptCount (env : Env) (config : Config) (tr : List Event) : Nat :=
  tr.count (Event.stdout (authPrompt (env.authCodeURL config)))

/-- Number of token-exchange requests in a trace. -/
def exchangeCount (tr : List Event) : Nat :=
  (tr.filter (fun e => match e with
    | .exchange _ => true
    | _ => false)).length

/-- A world in which `token.json` exists but its owner may neither read nor
write it, and the user is about to type a valid authorization code. -/
def lockedWorld : World :=
  { fs := [("token.json", { data := sampleTokenJSON ++ "\n", perm := 0 })]
    stdin := ["4/code"] }

/-- A world without `token.json` in which the user is about to type a valid
authorization code. -/
def firstRunWorld : World :=
  { fs := [("credentials.json", { data := "\x7b\"installed\":\"A\"\x7d", perm := 0o600 })]
    stdin := ["4/code"] }

/-- Requests to the Docs service. -/
def isDocsRequest : Event → Bool
  | .batchUpdate _ _ => true
  | .documentsGet _ => true
  | _ => false

/-- The requests to the Docs service recorded in a trace. -/
def docsRequests (tr : List Event) : List Event := tr.filter isDocsRequest

/-- A call that does not panic and sends nothing to the Docs service. -/
def Quiet {α : Type} (p : Prog α) : Prop :=
  ∀ w, (p w).panicked = false ∧ docsRequests (p w).world.trace = docsRequests w.trace

/-- A call that always ends the run in `log.Fatalf` and sends nothing to the
Docs service. -/
def QuietFatal {α : Type} (p : Prog α) : Prop :=
  ∀ w, (p w).isFatal = true ∧ docsRequests (p w).world.trace = docsRequests w.trace

/-- The sample environment with a Drive service that refuses every copy. -/
def denyEnv : Env :=
  { sampleEnv with
    filesCopy := fun _ _ _ => .error "googleapi: Error 403: insufficientFilePermissions" }

/-- A world with credentials and a cached token. -/
def readyWorld : World :=
  { fs := [("credentials.json", { data := "\x7b\"installed\":\"A\"\x7d", perm := 0o600 }),
           ("token.json", { data := sampleTokenJSON ++ "\n", perm := 0o600 })] }

/-- A Docs service handle built from the sample token. -/
def sampleDocs : DocsService :=
  { client := { config := sampleConfig, token := some sampleToken } }

/-- A Drive service handle built from the sample token. -/
def sampleDrive : DriveService :=
  { client := { config := sampleConfig, token := some sampleToken } }

/-- A document whose only paragraph starts with a page break (an element
without `TextRun`) followed by a text run. -/
def pageBreakDoc : Document :=
  { DocumentId := "COPY_1", Title := "try-gdocs-api"
    Body := some { Content :=
      [ { StartIndex := 1, EndIndex := 3
          Paragraph := some { Elements :=
            [ { StartIndex := 1, EndIndex := 2, TextRun := none },
              { StartIndex := 2, EndIndex := 3, TextRun := some { Content := "\n" } } ] } } ] } }

/-- The sample environment with a Docs service that serves `pageBreakDoc`. -/
def pageBreakEnv : Env :=
  { sampleEnv with documentsGet := fun _ _ => .ok pageBreakDoc }

/-! ## Sequencing lemmas -/

theorem bind_eq {α β : Type} (p : Prog α) (f : α → Prog β) (w : World) :
    (p >>= f) w = match p w with
      | .ret a w1 => f a w1
      | .fatal w1 => .fatal w1
      | .nilDeref w1 => .nilDeref w1 := rfl

theorem pure_eq {α : Type} (a : α) (w : World) : (pure a : Prog α) w = .ret a w := rfl

/-! ## The batch of edits -/

/-- Claim C1: `updateRequests` is a constant: the four requests InsertText
"\nHello." at index 178, InsertTableRow below row 0, column 0 of the table at
index 82, ReplaceAllText "{{insert2}}" by "lazy dog", ReplaceAllText
"{{insert1}}" by "The Quick Brown fox.", in this order, each with exactly one
union member set. -/
theorem updateRequests_fixed :
    updateRequests =
      [ { InsertTableRow := none
          InsertText := some { Location := some { Index := 178, SegmentId := "" }, Text := "\nHello." }
          ReplaceAllText := none },
        { InsertTableRow := some
            { InsertBelow := true
              TableCellLocation := some
                { ColumnIndex := 0, RowIndex := 0
                  TableStartLocation := some { Index := 82, SegmentId := "" } } }
          InsertText := none
          ReplaceAllText := none },
        { InsertTableRow := none
          InsertText := none
          ReplaceAllText := some
            { ContainsText := some { MatchCase := false, Text := "{{insert2}}" }
              ReplaceText := "lazy dog" } },
        { InsertTableRow := none
          InsertText := none
          ReplaceAllText := some
            { ContainsText := some { MatchCase := false, Text := "{{insert1}}" }
              ReplaceText := "The Quick Brown fox." } } ]
    ∧ updateRequests.length = 4
    ∧ ∀ r ∈ updateRequests, r.variantsSet = 1 := by
  refine ⟨rfl, rfl, ?_⟩
  intro r hr
  simp only [updateRequests, List.mem_cons, List.mem_singleton, List.not_mem_nil, or_false] at hr
  rcases hr with h | h | h | h <;> subst h <;> rfl

/-- Claim C2: among the requests of `updateRequests` that target a fixed
offset, a request earlier in the list has a strictly greater offset than a
later one. -/
theorem updateRequests_offsets_descending (i j : Nat) (a b : Int) (hij : i < j)
    (hi : (updateRequests.get? i).bind Request.targetOffset = some a)
    (hj : (updateRequests.get? j).bind Request.targetOffset = some b) :
    b < a := by
  rcases i with _ | _ | _ | _ | i <;> rcases j with _ | _ | _ | _ | j <;>
    simp [updateRequests, Request.targetOffset, insertIndex, tableIndex] at hi hj <;>
    omega

theorem updateRequests_offsets_descending_witness :
    (0 : Nat) < 1
      ∧ (updateRequests.get? 0).bind Request.targetOffset = some 178
      ∧ (updateRequests.get? 1).bind Request.targetOffset = some 82
      ∧ (82 : Int) < 178 :=
  ⟨by decide, rfl, rfl, updateRequests_offsets_descending 0 1 178 82 (by decide) rfl rfl⟩

/-! ## Loading the cached token -/

/-- Opening a file for reading changes nothing but the trace. -/
theorem osOpen_world (path : String) (w : World) :
    ∃ r, osOpen path w = .ret r (emit (.openRead path) w) := by
  unfold osOpen
  cases fsGet w.fs path with
  | none => exact ⟨_, rfl⟩
  | some f =>
    by_cases hr : f.readable = true
    · exact ⟨.ok f.data, by simp [hr]⟩
    · exact ⟨.error ("open " ++ path ++ ": permission denied"), by simp [hr]⟩

/-- A call of `tokenFromFile` always returns, and its only effect is the open. -/
theorem tokenFromFile_world (env : Env) (file : String) (w : World) :
    ∃ r, tokenFromFile env file w = .ret r (emit (.openRead file) w) := by
  obtain ⟨r, hr⟩ := osOpen_world file w
  unfold tokenFromFile
  rw [bind_eq, hr]
  cases r with
  | error e => exact ⟨_, rfl⟩
  | ok d => exact ⟨_, rfl⟩

/-- The branch of `getClient` taken when `tokenFromFile` reports no error. -/
theorem getClient_hit_eq (env : Env) (config : Config) (w w1 : World) (tok : Option Token)
    (h : tokenFromFile env "token.json" w = .ret (tok, none) w1) :
    getClient env config w = .ret { config := config, token := tok } w1 := by
  unfold getClient
  simp only [bind_eq, h]
  rfl

/-- Claim C3: when `tokenFromFile "token.json"` returns a token and no error,
`getClient` returns the client built from exactly that token, and the whole
call has one effect, the opening of `token.json` for reading: nothing is
printed, the console is not read, no token exchange is requested, no file is
written. -/
theorem getClient_uses_cached_token (env : Env) (config : Config) (w w1 : World)
    (tok : Option Token)
    (h : tokenFromFile env "token.json" w = .ret (tok, none) w1) :
    getClient env config w = .ret { config := config, token := tok } w1
      ∧ w1.trace = w.trace ++ [Event.openRead "token.json"]
      ∧ w1.fs = w.fs ∧ w1.stdin = w.stdin ∧ tok.isSome = true := by
  obtain ⟨r, hr⟩ := tokenFromFile_world env "token.json" w
  rw [h] at hr
  injection hr with h1 h2
  subst h2
  refine ⟨getClient_hit_eq env config w _ tok h, rfl, rfl, rfl, ?_⟩
  · unfold tokenFromFile at h
    rw [bind_eq] at h
    obtain ⟨r2, hr2⟩ := osOpen_world "token.json" w
    rw [hr2] at h
    cases r2 with
    | error e => simp [pure_eq] at h
    | ok d =>
      simp only [pure_eq] at h
      injection h with h3 _
      injection h3 with h4 _
      rw [← h4]; rfl

theorem getClient_uses_cached_token_witness :
    tokenFromFile sampleEnv "token.json" cachedWorld
        = .ret (some sampleToken, none) (emit (.openRead "token.json") cachedWorld)
      ∧ getClient sampleEnv sampleConfig cachedWorld
        = .ret { config := sampleConfig, token := some sampleToken }
            (emit (.openRead "token.json") cachedWorld) := by
  have h : tokenFromFile sampleEnv "token.json" cachedWorld
        = .ret (some sampleToken, none) (emit (.openRead "token.json") cachedWorld) := by
    rfl
  exact ⟨h, (getClient_uses_cached_token sampleEnv sampleConfig cachedWorld _ _ h).1⟩

/-! ## The file system -/

theorem fsGet_fsPut_same (fs : List (String × File)) (path : String) (f : File) :
    fsGet (fsPut fs path f) path = some f := by
  simp [fsGet, fsPut, List.lookup]

theorem lookup_filter_ne (fs : List (String × File)) (path q : String) (h : q ≠ path) :
    List.lookup q (fs.filter (fun e => e.1 != path)) = List.lookup q fs := by
  induction fs with
  | nil => rfl
  | cons e rest ih =>
    obtain ⟨p, f⟩ := e
    by_cases hp : p = path
    · subst hp
      have hq : (q == p) = false := by simpa using h
      simp [List.filter, List.lookup, hq, ih]
    · have hp2 : (p != path) = true := by simpa using hp
      simp only [List.filter, hp2, List.lookup]
      rw [ih]

theorem fsGet_fsPut_other (fs : List (String × File)) (path q : String) (f : File)
    (h : q ≠ path) : fsGet (fsPut fs path f) q = fsGet fs q := by
  have hq : (q == path) = false := by simpa using h
  simp only [fsGet, fsPut, List.lookup, hq]
  exact lookup_filter_ne fs path q h

theorem authPrompt_ne_saving (url path : String) :
    authPrompt url ≠ "Saving credential file to: " ++ path ++ "\n" := by
  intro h
  have h2 := congrArg String.data h
  simp [authPrompt, String.data_append] at h2

theorem String_empty_append (s : String) : "" ++ s = s := by
  apply String.ext
  simp [String.data_append]

/-- The three ways `os.OpenFile` with `O_RDWR|O_CREATE|O_TRUNC` can end. -/
theorem osOpenFileTrunc_cases (path : String) (perm : Nat) (w : World) :
    (∃ f0, fsGet w.fs path = some f0 ∧ f0.readable = true ∧ f0.writable = true
        ∧ osOpenFileTrunc path perm w = .ret (.ok ())
            { emit (.openWrite path) w with fs := fsPut w.fs path { f0 with data := "" } })
    ∨ (fsGet w.fs path = none ∧ path ∉ w.noCreate
        ∧ osOpenFileTrunc path perm w = .ret (.ok ())
            { emit (.openWrite path) w with
              fs := fsPut w.fs path { data := "", perm := applyUmask perm w.umask } })
    ∨ (∃ e, osOpenFileTrunc path perm w = .ret (.error e) (emit (.openWrite path) w)) := by
  cases hf : fsGet w.fs path with
  | none =>
    by_cases hc : path ∈ w.noCreate
    · exact Or.inr (Or.inr ⟨"open " ++ path ++ ": permission denied",
        by simp [osOpenFileTrunc, hf, hc]⟩)
    · exact Or.inr (Or.inl ⟨rfl, hc, by simp [osOpenFileTrunc, hf, hc]⟩)
  | some f0 =>
    by_cases hr : f0.readable = true
    · by_cases hw : f0.writable = true
      · exact Or.inl ⟨f0, rfl, hr, hw, by simp [osOpenFileTrunc, hf, hr, hw]⟩
      · exact Or.inr (Or.inr ⟨"open " ++ path ++ ": permission denied",
          by simp [osOpenFileTrunc, hf, hr, hw]⟩)
    · exact Or.inr (Or.inr ⟨"open " ++ path ++ ": permission denied",
        by simp [osOpenFileTrunc, hf, hr]⟩)

/-- `Encode` on a freshly truncated file: either nothing is written (marshal
error) or the file holds the text and a newline. -/
theorem jsonEncodeToFile_truncated (env : Env) (path : String) (tok : Token) (w : World)
    (p : Nat) (hf : fsGet w.fs path = some { data := "", perm := p }) :
    jsonEncodeToFile env path tok w =
      match jsonMarshalToken env tok with
      | .error e => .ret (some e) w
      | .ok text => .ret none (emit (.write path (text ++ "\n"))
          { w with fs := fsPut w.fs path { data := text ++ "\n", perm := p } }) := by
  unfold jsonEncodeToFile
  cases jsonMarshalToken env tok with
  | error e => rfl
  | ok text =>
    simp only [fileWrite, hf, String_empty_append]

/-- The two statements of `saveToken` after its print, spelled out. -/
theorem saveToken_eq (env : Env) (path : String) (tok : Token) (w : World) :
    saveToken env path tok w =
      match osOpenFileTrunc path 0o600 (emit (.stdout ("Saving credential file to: " ++ path ++ "\n")) w) with
      | .ret (.error err) w1 => .fatal (emit (.stderr ("Unable to cache OAuth token: " ++ err)) w1)
      | .ret (.ok ()) w1 =>
        (match jsonEncodeToFile env path tok w1 with
          | .ret _ w2 => .ret () w2
          | .fatal w2 => .fatal w2
          | .nilDeref w2 => .nilDeref w2)
      | .fatal w1 => .fatal w1
      | .nilDeref w1 => .nilDeref w1 := by
  unfold saveToken
  rw [bind_eq]
  show (osOpenFileTrunc path 0o600 >>= _) (emit _ w) = _
  rw [bind_eq]
  generalize osOpenFileTrunc path 0o600
    (emit (.stdout ("Saving credential file to: " ++ path ++ "\n")) w) = o
  cases o with
  | ret r w1 =>
    cases r with
    | error e => rfl
    | ok u =>
      cases u
      show (jsonEncodeToFile env path tok >>= _) w1 = _
      rw [bind_eq]
      dsimp only
      generalize jsonEncodeToFile env path tok w1 = o2
      cases o2 <;> rfl
  | fatal w1 => rfl
  | nilDeref w1 => rfl

/-- What `saveToken` leaves behind when it returns: a file at `path` whose
bytes are the encoded token followed by a newline, or no byte at all when
marshalling failed, with the permission bits of the file that was there, or
`0600` minus the umask for a file it created. -/
theorem saveToken_returns (env : Env) (path : String) (tok : Token) (w w2 : World)
    (h : saveToken env path tok w = .ret () w2) :
    ∃ f, fsGet w2.fs path = some f
      ∧ f.data = (match jsonMarshalToken env tok with
          | .ok text => text ++ "\n"
          | .error _ => "")
      ∧ f.perm = (match fsGet w.fs path with
          | some f0 => f0.perm
          | none => applyUmask 0o600 w.umask)
      ∧ (∀ f0, fsGet w.fs path = some f0 → f0.readable = true)
      ∧ w2.umask = w.umask ∧ w2.stdin = w.stdin
      ∧ w2.trace = w.trace
          ++ [Event.stdout ("Saving credential file to: " ++ path ++ "\n"), Event.openWrite path]
          ++ (match jsonMarshalToken env tok with
              | .ok text => [Event.write path (text ++ "\n")]
              | .error _ => []) := by
  rw [saveToken_eq] at h
  rcases osOpenFileTrunc_cases path 0o600
      (emit (.stdout ("Saving credential file to: " ++ path ++ "\n")) w) with
    ⟨f0, hf, hr, _, ho⟩ | ⟨hf, _, ho⟩ | ⟨e, ho⟩
  · rw [ho] at h
    dsimp only at h
    rw [jsonEncodeToFile_truncated env path tok _ f0.perm (fsGet_fsPut_same _ _ _)] at h
    have hf2 : fsGet w.fs path = some f0 := hf
    cases hm : jsonMarshalToken env tok with
    | error e =>
      rw [hm] at h
      dsimp only at h
      injection h with _ h2
      subst h2
      refine ⟨_, fsGet_fsPut_same _ _ _, rfl, by rw [hf2], ?_, rfl, rfl, by simp [emit]⟩
      intro g hg
      rw [hf2] at hg
      cases hg
      exact hr
    | ok text =>
      rw [hm] at h
      dsimp only at h
      injection h with _ h2
      subst h2
      refine ⟨_, fsGet_fsPut_same _ _ _, rfl, by rw [hf2], ?_, rfl, rfl, by simp [emit]⟩
      intro g hg
      rw [hf2] at hg
      cases hg
      exact hr
  · rw [ho] at h
    dsimp only at h
    rw [jsonEncodeToFile_truncated env path tok _ _ (fsGet_fsPut_same _ _ _)] at h
    have hf2 : fsGet w.fs path = none := hf
    cases hm : jsonMarshalToken env tok with
    | error e =>
      rw [hm] at h
      dsimp only at h
      injection h with _ h2
      subst h2
      exact ⟨_, fsGet_fsPut_same _ _ _, rfl, by rw [hf2]; rfl, by simp [hf2], rfl, rfl,
        by simp [emit]⟩
    | ok text =>
      rw [hm] at h
      dsimp only at h
      injection h with _ h2
      subst h2
      exact ⟨_, fsGet_fsPut_same _ _ _, rfl, by rw [hf2]; rfl, by simp [hf2], rfl, rfl,
        by simp [emit]⟩
  · rw [ho] at h
    cases h

/-! ## Saving the token -/

/-- Claim C5 (evaluation at the failing input): for the token `farToken`, and
no file at `token.json`, `saveToken` returns normally although `Encode` failed
and wrote nothing; the file is left empty and `tokenFromFile` on it reports
`EOF` instead of the saved token. -/
theorem saveToken_drops_encode_error (env : Env) :
    (∃ e, jsonMarshalToken env farToken = .error e)
      ∧ (saveToken env "token.json" farToken {}).returned = true
      ∧ fsGet (saveToken env "token.json" farToken {}).world.fs "token.json"
          = some { data := "", perm := 0o600 }
      ∧ (tokenFromFile env "token.json" (saveToken env "token.json" farToken {}).world).value
          = some (some {}, some "EOF") :=
  ⟨⟨_, rfl⟩, rfl, rfl, rfl⟩

/-- Reading back what `saveToken` wrote: when the token was marshalled to
`text` and the umask leaves the owner-read bit, `tokenFromFile` decodes exactly
`text` and a newline, whatever the file held before. -/
theorem tokenFromFile_after_saveToken (env : Env) (path : String) (tok : Token)
    (w w2 : World) (text : String)
    (h : saveToken env path tok w = .ret () w2)
    (hm : jsonMarshalToken env tok = .ok text)
    (hu : w.umask &&& 0o400 = 0) :
    tokenFromFile env path w2
      = .ret (some (jsonDecodeToken env (text ++ "\n")).1, (jsonDecodeToken env (text ++ "\n")).2)
          (emit (.openRead path) w2) := by
  obtain ⟨f, hf, hd, hp, hr, hum, _, _⟩ := saveToken_returns env path tok w w2 h
  rw [hm] at hd
  dsimp only at hd
  have hread : f.readable = true := by
    cases hf0 : fsGet w.fs path with
    | none =>
      rw [hf0] at hp
      dsimp only at hp
      have : f.perm &&& 0o400 = 0o400 := by
        rw [hp, applyUmask, Nat.and_xor_distrib_right, Nat.and_assoc, hu]
        rfl
      simp [File.readable, this]
    | some f0 =>
      rw [hf0] at hp
      dsimp only at hp
      have := hr f0 hf0
      simpa [File.readable, hp] using this
  unfold tokenFromFile
  rw [bind_eq]
  simp only [osOpen, hf, hread, if_true, hd]
  rfl

/-- Claim C7, counterexample: `token.json` exists with mode `0644`;
`saveToken` returns, the file holds the new token and still has mode `0644`,
which grants read access to group and others. -/
theorem saveToken_file_mode_counterexample :
    (saveToken sampleEnv "token.json" sampleToken sharedWorld).returned = true
      ∧ fsGet (saveToken sampleEnv "token.json" sampleToken sharedWorld).world.fs "token.json"
          = some { data := sampleTokenJSON ++ "\n", perm := 0o644 }
      ∧ (0o644 : Nat) ≠ 0o600 ∧ (0o644 &&& 0o077 : Nat) ≠ 0 :=
  ⟨rfl, rfl, by decide, by decide⟩

/-- Claim C7, amended: when `saveToken` returns, a file exists at `path`; if no
file was there before, its mode is `0600` minus the bits of the umask, which
never includes a group or other bit and is exactly `0600` when the umask
masks neither owner bit; if a file was there before, its mode is unchanged. -/
theorem saveToken_file_mode (env : Env) (path : String) (tok : Token) (w w2 : World)
    (h : saveToken env path tok w = .ret () w2) :
    ∃ f, fsGet w2.fs path = some f
      ∧ (fsGet w.fs path = none →
          f.perm = applyUmask 0o600 w.umask ∧ f.perm &&& 0o077 = 0
            ∧ (w.umask &&& 0o600 = 0 → f.perm = 0o600))
      ∧ (∀ f0, fsGet w.fs path = some f0 → f.perm = f0.perm) := by
  obtain ⟨f, hf, _, hp, _⟩ := saveToken_returns env path tok w w2 h
  refine ⟨f, hf, ?_, ?_⟩
  · intro hnone
    rw [hnone] at hp
    dsimp only at hp
    refine ⟨hp, ?_, ?_⟩
    · rw [hp, applyUmask, Nat.and_xor_distrib_right, Nat.and_assoc, Nat.and_comm w.umask,
        ← Nat.and_assoc]
      have h0 : (0o600 &&& 0o077 : Nat) = 0 := by decide
      rw [h0]
      simp
    · intro hu
      rw [hp, applyUmask, Nat.and_comm, hu]
      rfl
  · intro f0 hf0
    rw [hf0] at hp
    exact hp

theorem saveToken_file_mode_witness :
    ∃ f, fsGet (saveToken sampleEnv "token.json" sampleToken {}).world.fs "token.json" = some f
      ∧ (fsGet ({} : World).fs "token.json" = none →
          f.perm = applyUmask 0o600 ({} : World).umask ∧ f.perm &&& 0o077 = 0
            ∧ (({} : World).umask &&& 0o600 = 0 → f.perm = 0o600))
      ∧ (∀ f0, fsGet ({} : World).fs "token.json" = some f0 → f.perm = f0.perm) :=
  saveToken_file_mode sampleEnv "token.json" sampleToken {}
    (saveToken sampleEnv "token.json" sampleToken {}).world rfl

/-! ## Reading the credentials -/

/-- Claim C6 (evaluation at the failing input): `readCredentials` never looks
at its argument.  Called with `"other.json"` in a world where that file holds
other bytes than `credentials.json`, it returns the bytes of
`credentials.json`; and for every argument it behaves as for
`"credentials.json"`. -/
theorem readCredentials_ignores_argument :
    readCredentials "other.json" twoFilesWorld
        = .ret "\x7b\"installed\":\"A\"\x7d" (emit (.openRead "credentials.json") twoFilesWorld)
      ∧ fsGet twoFilesWorld.fs "other.json"
        = some { data := "\x7b\"installed\":\"B\"\x7d", perm := 0o600 }
      ∧ (readCredentials "other.json" { fs := [("other.json", { data := "x", perm := 0o600 })] }).isFatal
        = true
      ∧ ∀ (fn : String) (w : World), readCredentials fn w = readCredentials "credentials.json" w :=
  ⟨rfl, rfl, rfl, fun _ _ => rfl⟩

/-! ## The interactive flow -/

/-- The three ways `getTokenFromWeb` can end. -/
theorem getTokenFromWeb_cases (env : Env) (config : Config) (w : World) :
    (w.stdin = [] ∧ getTokenFromWeb env config w
        = .fatal { w with trace := w.trace ++ [Event.stdout (authPrompt (env.authCodeURL config)),
            Event.scan, Event.stderr ("Unable to read authorization code: " ++ "EOF")] })
    ∨ (∃ code rest e, w.stdin = code :: rest ∧ env.exchangeCode config code = .error e
        ∧ getTokenFromWeb env config w
          = .fatal { w with
              stdin := rest
              trace := w.trace ++ [Event.stdout (authPrompt (env.authCodeURL config)),
                Event.scan, Event.exchange code,
                Event.stderr ("Unable to retrieve token from web: " ++ e)] })
    ∨ (∃ code rest tok, w.stdin = code :: rest ∧ env.exchangeCode config code = .ok tok
        ∧ getTokenFromWeb env config w
          = .ret tok { w with
              stdin := rest
              trace := w.trace ++ [Event.stdout (authPrompt (env.authCodeURL config)),
                Event.scan, Event.exchange code] }) := by
  cases hs : w.stdin with
  | nil =>
    refine Or.inl ⟨rfl, ?_⟩
    simp [getTokenFromWeb, bind_eq, printf, fmtScan, emit, hs, fatalf]
  | cons code rest =>
    cases hx : env.exchangeCode config code with
    | error e =>
      refine Or.inr (Or.inl ⟨code, rest, e, rfl, hx, ?_⟩)
      simp [getTokenFromWeb, bind_eq, printf, fmtScan, emit, hs, fatalf, configExchange, hx]
    | ok tok =>
      refine Or.inr (Or.inr ⟨code, rest, tok, rfl, hx, ?_⟩)
      simp [getTokenFromWeb, bind_eq, printf, fmtScan, emit, hs, configExchange, hx, pure_eq]

/-- A call of `saveToken` either returns or ends the run at the failed open,
having changed nothing but the trace. -/
theorem saveToken_cases (env : Env) (path : String) (tok : Token) (w : World) :
    (∃ w2, saveToken env path tok w = .ret () w2)
    ∨ (∃ e, saveToken env path tok w
        = .fatal { w with trace := w.trace
            ++ [Event.stdout ("Saving credential file to: " ++ path ++ "\n"),
                Event.openWrite path, Event.stderr ("Unable to cache OAuth token: " ++ e)] }) := by
  rw [saveToken_eq]
  rcases osOpenFileTrunc_cases path 0o600
      (emit (.stdout ("Saving credential file to: " ++ path ++ "\n")) w) with
    ⟨f0, _, _, _, ho⟩ | ⟨_, _, ho⟩ | ⟨e, ho⟩
  · rw [ho]
    dsimp only
    rw [jsonEncodeToFile_truncated env path tok _ f0.perm (fsGet_fsPut_same _ _ _)]
    cases jsonMarshalToken env tok with
    | error e => exact Or.inl ⟨_, rfl⟩
    | ok text => exact Or.inl ⟨_, rfl⟩
  · rw [ho]
    dsimp only
    rw [jsonEncodeToFile_truncated env path tok _ _ (fsGet_fsPut_same _ _ _)]
    cases jsonMarshalToken env tok with
    | error e => exact Or.inl ⟨_, rfl⟩
    | ok text => exact Or.inl ⟨_, rfl⟩
  · rw [ho]
    refine Or.inr ⟨e, ?_⟩
    simp [emit]

/-- The branch of `getClient` taken when `tokenFromFile` reports an error. -/
theorem getClient_miss_eq (env : Env) (config : Config) (w w1 : World)
    (t0 : Option Token) (e : String)
    (hcache : tokenFromFile env "token.json" w = .ret (t0, some e) w1) :
    getClient env config w =
      match getTokenFromWeb env config w1 with
      | .ret tok w2 =>
        (match saveToken env "token.json" tok w2 with
          | .ret _ w3 => .ret { config := config, token := some tok } w3
          | .fatal w3 => .fatal w3
          | .nilDeref w3 => .nilDeref w3)
      | .fatal w2 => .fatal w2
      | .nilDeref w2 => .nilDeref w2 := by
  unfold getClient
  rw [bind_eq, hcache]
  dsimp only
  show (getTokenFromWeb env config >>= _) w1 = _
  rw [bind_eq]
  generalize getTokenFromWeb env config w1 = o
  cases o with
  | ret tok w2 =>
    dsimp only
    show (saveToken env "token.json" tok >>= _) w2 = _
    rw [bind_eq]
    generalize saveToken env "token.json" tok w2 = o2
    cases o2 <;> rfl
  | fatal w2 => rfl
  | nilDeref w2 => rfl

theorem count_prompt_saving (env : Env) (config : Config) (path : String) :
    promptCount env config [Event.stdout ("Saving credential file to: " ++ path ++ "\n")] = 0 := by
  have h := authPrompt_ne_saving (env.authCodeURL config) path
  simp only [promptCount, List.count_cons, List.count_nil, beq_iff_eq, Event.stdout.injEq]
  rw [if_neg (fun h2 => h h2.symm)]

theorem scanCount_append (a b : List Event) : scanCount (a ++ b) = scanCount a + scanCount b := by
  simp [scanCount, List.count_append]

theorem promptCount_append (env : Env) (config : Config) (a b : List Event) :
    promptCount env config (a ++ b) = promptCount env config a + promptCount env config b := by
  simp [promptCount, List.count_append]

/-- The trace `saveToken` adds holds no console read and no authorization prompt. -/
theorem saveToken_counts (env : Env) (config : Config) (path : String) (tok : Token)
    (w : World) :
    scanCount (saveToken env path tok w).world.trace = scanCount w.trace
      ∧ promptCount env config (saveToken env path tok w).world.trace
          = promptCount env config w.trace := by
  have hp := count_prompt_saving env config path
  rcases saveToken_cases env path tok w with ⟨w2, h⟩ | ⟨e, h⟩
  · obtain ⟨_, _, _, _, _, _, _, ht⟩ := saveToken_returns env path tok w w2 h
    rw [h]
    simp only [Outcome.world, ht]
    constructor
    · cases jsonMarshalToken env tok <;> simp [scanCount, List.count_append, List.count_cons]
    · have e1 : ∀ l : List Event,
          w.trace ++ [Event.stdout ("Saving credential file to: " ++ path ++ "\n"),
            Event.openWrite path] ++ l
          = w.trace ++ ([Event.stdout ("Saving credential file to: " ++ path ++ "\n")]
            ++ (Event.openWrite path :: l)) := by
        intro l; simp
      rw [e1, promptCount_append, promptCount_append, hp]
      cases jsonMarshalToken env tok <;> simp [promptCount, List.count_cons]
  · rw [h]
    simp only [Outcome.world]
    constructor
    · simp [scanCount, List.count_append, List.count_cons]
    · have e1 : w.trace ++ [Event.stdout ("Saving credential file to: " ++ path ++ "\n"),
            Event.openWrite path, Event.stderr ("Unable to cache OAuth token: " ++ e)]
          = w.trace ++ ([Event.stdout ("Saving credential file to: " ++ path ++ "\n")]
            ++ [Event.openWrite path, Event.stderr ("Unable to cache OAuth token: " ++ e)]) := by
        simp
      rw [e1, promptCount_append, promptCount_append, hp]
      simp [promptCount, List.count_cons]

/-- Every call of `getTokenFromWeb` prints the prompt once and reads the
console once, and leaves the file system alone. -/
theorem getTokenFromWeb_counts (env : Env) (config : Config) (w : World) :
    scanCount (getTokenFromWeb env config w).world.trace = scanCount w.trace + 1
      ∧ promptCount env config (getTokenFromWeb env config w).world.trace
          = promptCount env config w.trace + 1
      ∧ (getTokenFromWeb env config w).world.fs = w.fs
      ∧ (getTokenFromWeb env config w).world.umask = w.umask
      ∧ (getTokenFromWeb env config w).panicked = false := by
  rcases getTokenFromWeb_cases env config w with ⟨_, h⟩ | ⟨code, rest, e, _, _, h⟩ |
    ⟨code, rest, tok, _, _, h⟩ <;>
  · rw [h]
    simp [Outcome.world, Outcome.panicked, scanCount, promptCount, List.count_append,
      List.count_cons]

/-- Claim C4, amended: when `tokenFromFile "token.json"` reports an error,
`getClient` runs the interactive flow exactly once (one prompt, one console
read).  When the flow yields a token, either `saveToken` cannot open
`token.json` and the run ends there with the file system unchanged, or
`saveToken` returns; in the latter case, if the token was marshalled,
`token.json` holds exactly its encoding and a second `getClient`, when the
umask leaves the owner-read bit and the encoding decodes, returns the client
of the decoded token with the open of `token.json` as its only effect. -/
theorem getClient_refreshes_cache (env : Env) (config : Config) (w w1 : World)
    (t0 : Option Token) (e : String)
    (hcache : tokenFromFile env "token.json" w = .ret (t0, some e) w1) :
    (scanCount (getClient env config w).world.trace = scanCount w.trace + 1
      ∧ promptCount env config (getClient env config w).world.trace
          = promptCount env config w.trace + 1)
    ∧ ∀ tok w2, getTokenFromWeb env config w1 = .ret tok w2 →
        ((∀ w3, saveToken env "token.json" tok w2 ≠ .ret () w3) →
          (getClient env config w).isFatal = true ∧ (getClient env config w).world.fs = w.fs)
        ∧ ∀ w3 text, saveToken env "token.json" tok w2 = .ret () w3 →
            jsonMarshalToken env tok = .ok text →
            getClient env config w = .ret { config := config, token := some tok } w3
            ∧ (fsGet w3.fs "token.json").map File.data = some (text ++ "\n")
            ∧ ∀ tok', w.umask &&& 0o400 = 0 →
                jsonDecodeToken env (text ++ "\n") = (tok', none) →
                getClient env config w3
                  = .ret { config := config, token := some tok' }
                      (emit (.openRead "token.json") w3) := by
  obtain ⟨r, hr⟩ := tokenFromFile_world env "token.json" w
  rw [hcache] at hr
  injection hr with _ hw1
  subst hw1
  have hget := getClient_miss_eq env config w _ t0 e hcache
  obtain ⟨hs, hp, hfs, hum, hnp⟩ := getTokenFromWeb_counts env config (emit (.openRead "token.json") w)
  have hbase : scanCount (emit (.openRead "token.json") w).trace = scanCount w.trace
      ∧ promptCount env config (emit (.openRead "token.json") w).trace
          = promptCount env config w.trace := by
    simp [emit, scanCount, promptCount, List.count_append, List.count_cons]
  refine ⟨?_, ?_⟩
  · rw [hget]
    cases hflow : getTokenFromWeb env config (emit (.openRead "token.json") w) with
    | ret tok w2 =>
      rw [hflow] at hs hp
      simp only [Outcome.world] at hs hp
      obtain ⟨hs2, hp2⟩ := saveToken_counts env config "token.json" tok w2
      dsimp only
      cases hsave : saveToken env "token.json" tok w2 with
      | ret u w3 =>
        rw [hsave] at hs2 hp2
        simp only [Outcome.world] at hs2 hp2 ⊢
        exact ⟨by rw [hs2, hs, hbase.1], by rw [hp2, hp, hbase.2]⟩
      | fatal w3 =>
        rw [hsave] at hs2 hp2
        simp only [Outcome.world] at hs2 hp2 ⊢
        exact ⟨by rw [hs2, hs, hbase.1], by rw [hp2, hp, hbase.2]⟩
      | nilDeref w3 =>
        rw [hsave] at hs2 hp2
        simp only [Outcome.world] at hs2 hp2 ⊢
        exact ⟨by rw [hs2, hs, hbase.1], by rw [hp2, hp, hbase.2]⟩
    | fatal w2 =>
      rw [hflow] at hs hp
      simp only [Outcome.world] at hs hp ⊢
      exact ⟨by rw [hs, hbase.1], by rw [hp, hbase.2]⟩
    | nilDeref w2 =>
      rw [hflow] at hs hp
      simp only [Outcome.world] at hs hp ⊢
      exact ⟨by rw [hs, hbase.1], by rw [hp, hbase.2]⟩
  · intro tok w2 hflow
    rw [hflow] at hfs hum
    simp only [Outcome.world, emit] at hfs hum
    rw [hflow] at hget
    dsimp only at hget
    refine ⟨?_, ?_⟩
    · intro hno
      rcases saveToken_cases env "token.json" tok w2 with ⟨w3, h3⟩ | ⟨e3, h3⟩
      · exact absurd h3 (hno w3)
      · rw [h3] at hget
        rw [hget]
        exact ⟨rfl, hfs⟩
    · intro w3 text hsave hm
      rw [hsave] at hget
      refine ⟨hget, ?_, ?_⟩
      · obtain ⟨f, hf, hd, _⟩ := saveToken_returns env "token.json" tok w2 w3 hsave
        rw [hm] at hd
        rw [hf]
        simp [hd]
      · intro tok' hu hdec
        have hread := tokenFromFile_after_saveToken env "token.json" tok w2 w3 text hsave hm
          (by rw [hum]; exact hu)
        rw [hdec] at hread
        exact getClient_hit_eq env config w3 _ _ hread

theorem getClient_refreshes_cache_witness :
    tokenFromFile sampleEnv "token.json" firstRunWorld
        = .ret (none, some "open token.json: no such file or directory")
            (emit (.openRead "token.json") firstRunWorld)
      ∧ scanCount (getClient sampleEnv sampleConfig firstRunWorld).world.trace = 1
      ∧ promptCount sampleEnv sampleConfig
          (getClient sampleEnv sampleConfig firstRunWorld).world.trace = 1
      ∧ getClient sampleEnv sampleConfig (getClient sampleEnv sampleConfig firstRunWorld).world
        = .ret { config := sampleConfig, token := some sampleToken }
            (emit (.openRead "token.json")
              (getClient sampleEnv sampleConfig firstRunWorld).world) := by
  have h := getClient_refreshes_cache sampleEnv sampleConfig firstRunWorld
    (emit (.openRead "token.json") firstRunWorld) none
    "open token.json: no such file or directory" rfl
  refine ⟨rfl, h.1.1, h.1.2, ?_⟩
  exact ((h.2 sampleToken
      (getTokenFromWeb sampleEnv sampleConfig (emit (.openRead "token.json") firstRunWorld)).world
      rfl).2
    (getClient sampleEnv sampleConfig firstRunWorld).world sampleTokenJSON rfl rfl).2.2
    sampleToken rfl rfl

/-- Claim C4, counterexample: `token.json` exists but cannot be opened, the
user types a code the identity provider accepts, so the interactive flow
yields a token; `saveToken` then fails to open the file, the run ends in
`log.Fatalf`, and the file system is what it was: nothing was persisted. -/
theorem getClient_refreshes_cache_counterexample :
    (tokenFromFile sampleEnv "token.json" lockedWorld).value
        = some (none, some "open token.json: permission denied")
      ∧ (getTokenFromWeb sampleEnv sampleConfig
          (tokenFromFile sampleEnv "token.json" lockedWorld).world).value = some sampleToken
      ∧ (getClient sampleEnv sampleConfig lockedWorld).isFatal = true
      ∧ (getClient sampleEnv sampleConfig lockedWorld).world.fs = lockedWorld.fs
      ∧ (getClient sampleEnv sampleConfig lockedWorld).world.trace
        = [Event.openRead "token.json",
           Event.stdout (authPrompt "https://accounts.google.com/o/oauth2/auth?state=state-token"),
           Event.scan, Event.exchange "4/code",
           Event.stdout "Saving credential file to: token.json\n",
           Event.openWrite "token.json",
           Event.stderr "Unable to cache OAuth token: open token.json: permission denied"] :=
  ⟨rfl, rfl, rfl, rfl, rfl⟩

/-! ## Requests to the Docs service -/

theorem docsRequests_emit (e : Event) (w : World) (h : isDocsRequest e = false) :
    docsRequests (emit e w).trace = docsRequests w.trace := by
  simp [docsRequests, emit, List.filter_append, List.filter, h]

theorem quiet_bind {α β : Type} (p : Prog α) (f : α → Prog β) (hp : Quiet p)
    (hf : ∀ a, Quiet (f a)) : Quiet (p >>= f) := by
  intro w
  rw [bind_eq]
  have h1 := hp w
  cases hpw : p w with
  | ret a w1 =>
    rw [hpw] at h1
    have h2 := hf a w1
    exact ⟨h2.1, h2.2.trans h1.2⟩
  | fatal w1 =>
    rw [hpw] at h1
    exact ⟨rfl, h1.2⟩
  | nilDeref w1 =>
    rw [hpw] at h1
    simp [Outcome.panicked] at h1

theorem quietFatal_bind {α β : Type} (p : Prog α) (f : α → Prog β) (hp : Quiet p)
    (hf : ∀ a, QuietFatal (f a)) : QuietFatal (p >>= f) := by
  intro w
  rw [bind_eq]
  have h1 := hp w
  cases hpw : p w with
  | ret a w1 =>
    rw [hpw] at h1
    have h2 := hf a w1
    exact ⟨h2.1, h2.2.trans h1.2⟩
  | fatal w1 =>
    rw [hpw] at h1
    exact ⟨rfl, h1.2⟩
  | nilDeref w1 =>
    rw [hpw] at h1
    simp [Outcome.panicked] at h1

theorem quiet_pure {α : Type} (a : α) : Quiet (pure a : Prog α) := fun _ => ⟨rfl, rfl⟩

theorem quiet_printf (s : String) : Quiet (printf s) :=
  fun w => ⟨rfl, docsRequests_emit _ w rfl⟩

theorem quiet_fatalf {α : Type} (msg : String) : Quiet (fatalf msg : Prog α) :=
  fun w => ⟨rfl, docsRequests_emit _ w rfl⟩

theorem quietFatal_fatalf {α : Type} (msg : String) : QuietFatal (fatalf msg : Prog α) :=
  fun w => ⟨rfl, docsRequests_emit _ w rfl⟩

theorem quiet_tokenFromFile (env : Env) (file : String) : Quiet (tokenFromFile env file) := by
  intro w
  obtain ⟨r, hr⟩ := tokenFromFile_world env file w
  rw [hr]
  exact ⟨rfl, docsRequests_emit _ w rfl⟩

theorem quiet_getTokenFromWeb (env : Env) (config : Config) :
    Quiet (getTokenFromWeb env config) := by
  intro w
  rcases getTokenFromWeb_cases env config w with ⟨_, h⟩ | ⟨code, rest, e, _, _, h⟩ |
    ⟨code, rest, tok, _, _, h⟩ <;>
  · rw [h]
    simp [Outcome.world, Outcome.panicked, docsRequests, List.filter_append, List.filter,
      isDocsRequest]

theorem quiet_saveToken (env : Env) (path : String) (tok : Token) :
    Quiet (saveToken env path tok) := by
  intro w
  rcases saveToken_cases env path tok w with ⟨w2, h⟩ | ⟨e, h⟩
  · obtain ⟨_, _, _, _, _, _, _, ht⟩ := saveToken_returns env path tok w w2 h
    rw [h]
    refine ⟨rfl, ?_⟩
    simp only [Outcome.world, ht]
    cases jsonMarshalToken env tok <;>
      simp [docsRequests, List.filter_append, List.filter, isDocsRequest]
  · rw [h]
    simp [Outcome.world, Outcome.panicked, docsRequests, List.filter_append, List.filter,
      isDocsRequest]

theorem quiet_getClient (env : Env) (config : Config) : Quiet (getClient env config) := by
  unfold getClient
  refine quiet_bind _ _ (quiet_tokenFromFile env _) ?_
  rintro ⟨tok, err⟩
  dsimp only
  split
  · refine quiet_bind _ _ (quiet_getTokenFromWeb env config) (fun tok2 => ?_)
    exact quiet_bind _ _ (quiet_saveToken env _ tok2) (fun _ => quiet_pure _)
  · exact quiet_pure _

theorem quiet_readCredentials (fn : String) : Quiet (readCredentials fn) := by
  unfold readCredentials
  refine quiet_bind _ _ ?_ ?_
  · intro w
    obtain ⟨r, hr⟩ := osOpen_world "credentials.json" w
    show (osOpen "credentials.json" w).panicked = false
      ∧ docsRequests (osOpen "credentials.json" w).world.trace = docsRequests w.trace
    rw [hr]
    exact ⟨rfl, docsRequests_emit (.openRead "credentials.json") w rfl⟩
  · intro r
    cases r with
    | error e => exact quiet_fatalf _
    | ok b => exact quiet_pure _

theorem quiet_newGoogleDriveService (env : Env) (b : String) :
    Quiet (newGoogleDriveService env b) := by
  unfold newGoogleDriveService
  cases env.configFromJSON b driveScope with
  | error e => exact quiet_fatalf _
  | ok config =>
    refine quiet_bind _ _ (quiet_getClient env config) (fun client => ?_)
    dsimp only
    cases env.driveNew client with
    | error e => exact quiet_fatalf _
    | ok srv => exact quiet_pure _

/-! ## Copying the document -/

/-- A refused copy ends the run at once. -/
theorem copyGoogleDriveFile_refused (env : Env) (ds : DriveService) (srcID tgtName e : String)
    (w : World) (h : env.filesCopy ds srcID tgtName = .error e) :
    copyGoogleDriveFile env ds srcID tgtName w
      = .fatal { w with trace := w.trace
          ++ [Event.filesCopy srcID tgtName, Event.stderr ("could not copy file: " ++ e)] } := by
  simp [copyGoogleDriveFile, bind_eq, filesCopyDo, h, fatalf, emit]

/-- Claim C8: whenever the Drive service answers the copy request with an
error, `copyGoogleDriveFile` ends the run in `log.Fatalf` right after that
request; and when the service refuses the copy `main` asks for, every run of
`main` ends in `log.Fatalf` without any request to the Docs service having
been sent (no batch update, no document fetch). -/
theorem copy_failure_is_fatal (env : Env) :
    (∀ (ds : DriveService) (srcID tgtName e : String) (w : World),
        env.filesCopy ds srcID tgtName = .error e →
        copyGoogleDriveFile env ds srcID tgtName w
          = .fatal { w with trace := w.trace
              ++ [Event.filesCopy srcID tgtName, Event.stderr ("could not copy file: " ++ e)] })
    ∧ ((∀ ds, ∃ e, env.filesCopy ds testDocID outputFilename = .error e) →
        ∀ w : World, (main env w).isFatal = true
          ∧ docsRequests (main env w).world.trace = docsRequests w.trace) := by
  refine ⟨fun ds srcID tgtName e w h => copyGoogleDriveFile_refused env ds srcID tgtName e w h, ?_⟩
  intro hdeny
  have hq : QuietFatal (main env) := by
    unfold main
    refine quietFatal_bind _ _ (quiet_readCredentials _) (fun b => ?_)
    refine quietFatal_bind _ _ (quiet_newGoogleDriveService env b) (fun ds => ?_)
    intro w
    obtain ⟨e, he⟩ := hdeny ds
    rw [bind_eq, copyGoogleDriveFile_refused env ds _ _ e w he]
    refine ⟨rfl, ?_⟩
    simp [Outcome.world, docsRequests, List.filter_append, List.filter, isDocsRequest]
  exact hq

theorem copy_failure_is_fatal_witness :
    denyEnv.filesCopy sampleDrive "DOC_A" "Copy of A"
        = .error "googleapi: Error 403: insufficientFilePermissions"
      ∧ copyGoogleDriveFile denyEnv sampleDrive "DOC_A" "Copy of A" readyWorld
        = .fatal { readyWorld with trace :=
            [Event.filesCopy "DOC_A" "Copy of A",
             Event.stderr "could not copy file: googleapi: Error 403: insufficientFilePermissions"] }
      ∧ (main denyEnv readyWorld).isFatal = true
      ∧ docsRequests (main denyEnv readyWorld).world.trace = []
      ∧ (main denyEnv readyWorld).world.trace
        = [Event.openRead "credentials.json", Event.openRead "token.json",
           Event.filesCopy testDocID outputFilename,
           Event.stderr "could not copy file: googleapi: Error 403: insufficientFilePermissions"] :=
  ⟨rfl,
   (copy_failure_is_fatal denyEnv).1 sampleDrive "DOC_A" "Copy of A" _ readyWorld rfl,
   ((copy_failure_is_fatal denyEnv).2 (fun _ => ⟨_, rfl⟩) readyWorld).1,
   ((copy_failure_is_fatal denyEnv).2 (fun _ => ⟨_, rfl⟩) readyWorld).2,
   rfl⟩

/-! ## Sending the batch -/

/-- Claim C9: `updateDoc` sends exactly one request, a batch update addressed
to `docID` that carries the whole list of `updateRequests`.  If the service
rejects it the run ends in `log.Fatalf` and nothing is printed; if the service
accepts it and the response serializes, the serialized response is printed
once and the call returns; a response that fails to serialize ends the run. -/
theorem updateDoc_sends_one_batch (env : Env) (srv : DocsService) (docID : String)
    (w : World) :
    docsRequests (updateDoc env srv docID w).world.trace
        = docsRequests w.trace ++ [Event.batchUpdate docID updateRequests]
    ∧ (∀ e, env.documentsBatchUpdate srv docID updateRequests = .error e →
        updateDoc env srv docID w
          = .fatal { w with trace := w.trace
              ++ [Event.batchUpdate docID updateRequests,
                  Event.stderr ("Unabled to update data in document: " ++ e)] })
    ∧ (∀ res b, env.documentsBatchUpdate srv docID updateRequests = .ok res →
        env.marshalResponse res = .ok b →
        updateDoc env srv docID w
          = .ret () { w with trace := w.trace
              ++ [Event.batchUpdate docID updateRequests, Event.stdout (b ++ "\n")] })
    ∧ (∀ res e, env.documentsBatchUpdate srv docID updateRequests = .ok res →
        env.marshalResponse res = .error e →
        updateDoc env srv docID w
          = .fatal { w with trace := w.trace
              ++ [Event.batchUpdate docID updateRequests,
                  Event.stderr ("showUpdateResponses: " ++ e)] }) := by
  have h2 : ∀ e, env.documentsBatchUpdate srv docID updateRequests = .error e →
      updateDoc env srv docID w
        = .fatal { w with trace := w.trace
            ++ [Event.batchUpdate docID updateRequests,
                Event.stderr ("Unabled to update data in document: " ++ e)] } := by
    intro e h
    simp [updateDoc, bind_eq, batchUpdateDo, h, fatalf, emit]
  have h3 : ∀ res b, env.documentsBatchUpdate srv docID updateRequests = .ok res →
      env.marshalResponse res = .ok b →
      updateDoc env srv docID w
        = .ret () { w with trace := w.trace
            ++ [Event.batchUpdate docID updateRequests, Event.stdout (b ++ "\n")] } := by
    intro res b h hm
    simp [updateDoc, bind_eq, batchUpdateDo, h, showUpdateResponses, hm, printf, emit]
  have h4 : ∀ res e, env.documentsBatchUpdate srv docID updateRequests = .ok res →
      env.marshalResponse res = .error e →
      updateDoc env srv docID w
        = .fatal { w with trace := w.trace
            ++ [Event.batchUpdate docID updateRequests,
                Event.stderr ("showUpdateResponses: " ++ e)] } := by
    intro res e h hm
    simp [updateDoc, bind_eq, batchUpdateDo, h, showUpdateResponses, hm, fatalf, emit]
  refine ⟨?_, h2, h3, h4⟩
  cases h : env.documentsBatchUpdate srv docID updateRequests with
  | error e =>
    rw [h2 e h]
    simp [Outcome.world, docsRequests, List.filter_append, List.filter, isDocsRequest]
  | ok res =>
    cases hm : env.marshalResponse res with
    | error e =>
      rw [h4 res e h hm]
      simp [Outcome.world, docsRequests, List.filter_append, List.filter, isDocsRequest]
    | ok b =>
      rw [h3 res b h hm]
      simp [Outcome.world, docsRequests, List.filter_append, List.filter, isDocsRequest]

theorem updateDoc_sends_one_batch_witness :
    sampleEnv.documentsBatchUpdate sampleDocs "COPY_1" updateRequests = .ok sampleResponse
      ∧ sampleEnv.documentsBatchUpdate sampleDocs "DOC_X" updateRequests
          = .error "googleapi: Error 400"
      ∧ updateDoc sampleEnv sampleDocs "COPY_1" {}
          = .ret () { trace := [Event.batchUpdate "COPY_1" updateRequests,
              Event.stdout "\x7b\"documentId\":\"COPY_1\"\x7d\n"] }
      ∧ updateDoc sampleEnv sampleDocs "DOC_X" {}
          = .fatal { trace := [Event.batchUpdate "DOC_X" updateRequests,
              Event.stderr "Unabled to update data in document: googleapi: Error 400"] } :=
  ⟨rfl, rfl,
   (updateDoc_sends_one_batch sampleEnv sampleDocs "COPY_1" {}).2.2.1 sampleResponse _ rfl rfl,
   (updateDoc_sends_one_batch sampleEnv sampleDocs "DOC_X" {}).2.1 _ rfl⟩

/-! ## Printing a document -/

/-- The loop over the elements of a paragraph returns exactly when every
element has a text run, and then prints each content once, in order. -/
theorem showElements_all_text (els : List ParagraphElement) (w : World)
    (h : ∀ e ∈ els, e.TextRun.isSome = true) :
    showElements els w
      = .ret () { w with trace :=
          (w.trace ++ els.map (fun e => Event.stdout ((e.TextRun.getD {}).Content ++ "\n"))) } := by
  induction els generalizing w with
  | nil => simp [showElements, pure_eq]
  | cons e rest ih =>
    have he := h e (List.mem_cons_self _ _)
    cases htr : e.TextRun with
    | none => rw [htr] at he; cases he
    | some tr =>
      have hrest : ∀ x ∈ rest, x.TextRun.isSome = true :=
        fun x hx => h x (List.mem_cons_of_mem _ hx)
      simp only [showElements, htr, bind_eq, printf]
      rw [ih _ hrest]
      simp [emit, htr]

/-- Claim C10 (evaluation at the failing input): on a fetched document whose
first paragraph element is not a text run, `printDoc` prints the title and
then dereferences the nil `TextRun`: the call panics, and the text run that
follows in the same paragraph is never printed. -/
theorem printDoc_panics_on_non_text_element :
    pageBreakEnv.documentsGet sampleDocs "COPY_1" = .ok pageBreakDoc
      ∧ (getDoc pageBreakEnv sampleDocs "COPY_1" {}).value = some pageBreakDoc
      ∧ (printDoc pageBreakEnv sampleDocs "COPY_1" {}).panicked = true
      ∧ (printDoc pageBreakEnv sampleDocs "COPY_1" {}).world.trace
          = [Event.documentsGet "COPY_1", Event.stdout "The title of the doc is: try-gdocs-api\n"]
      ∧ (showElements [{ StartIndex := 1, EndIndex := 2, TextRun := none }] {}).panicked = true :=
  ⟨rfl, rfl, rfl, rfl, rfl⟩

end Quickstart
